import Mathlib

/-!
Verification of the BAI-format document model and processing pipeline
(`src/data/mod.rs` of the baimax repository) in a shallow embedding.

Machine integers are embedded as subtypes of `Nat`/`Int` with explicit
range bounds; fallible operations return `Option`/`Except`.
-/

set_option linter.unusedVariables false

namespace Baimax

/-! ## Machine-integer carriers -/

/-- Rust `u32`: a natural number below `2 ^ 32`. -/
abbrev U32 : Type := {n : Nat // n < 2 ^ 32}

/-- Rust `u64`: a natural number below `2 ^ 64`. -/
abbrev U64 : Type := {n : Nat // n < 2 ^ 64}

/-- Rust `i64`: an integer in `[-2 ^ 63, 2 ^ 63)`. -/
abbrev I64 : Type := {i : Int // -(2 ^ 63) ≤ i ∧ i < 2 ^ 63}

/-- The Rust cast `a as i64` applied to a `u64` value: values below
`2 ^ 63` pass through, larger ones wrap around by `2 ^ 64`. -/
def u64AsI64 (a : U64) : Int :=
  if a.val < 2 ^ 63 then (a.val : Int) else (a.val : Int) - 2 ^ 64

/-! ## External date/time collaborator (chrono `NaiveDate` etc.) -/

/-- chrono `NaiveDate`: a plain calendar date. -/
structure NaiveDate where
  year : Int
  month : Nat
  day : Nat
deriving DecidableEq

/-- chrono `NaiveTime`: a time of day. -/
structure NaiveTime where
  hour : Nat
  minute : Nat
  second : Nat
deriving DecidableEq

/-- chrono `NaiveDateTime`: a calendar date paired with a time of day;
`.date` and `.time` are its component accessors. -/
structure NaiveDateTime where
  date : NaiveDate
  time : NaiveTime
deriving DecidableEq

/-! ## External currency/money collaborator (penny `Currency`, `Money`) -/

/-- penny `Currency`: an ISO currency identity, carried by its
three-letter code. -/
structure Currency where
  code : String
deriving DecidableEq

/-- The system default currency `Currency::USD`. -/
def Currency.USD : Currency := ⟨"USD"⟩

/-- penny `Money`: an amount in minor units attached to a currency. -/
structure Money where
  value : Int
  currency : Currency
deriving DecidableEq

/-- penny `Money::new(value, currency)`. -/
def Money.new (value : Int) (currency : Currency) : Money :=
  ⟨value, currency⟩

/-! ## BaiDateTime / BaiDateOrTime (src/data/mod.rs lines 59-144) -/

/-- `BaiDateTime`: a timed instant or an end-of-business-day marker. -/
inductive BaiDateTime
  | DateTime (dt : NaiveDateTime)
  | DateEndOfDay (d : NaiveDate)
deriving DecidableEq

/-- `impl From<NaiveDateTime> for BaiDateTime`. -/
def BaiDateTime.ofNaiveDateTime (datetime : NaiveDateTime) : BaiDateTime :=
  BaiDateTime.DateTime datetime

/-- `impl From<NaiveDate> for BaiDateTime`: a bare date becomes the
end-of-day marker. -/
def BaiDateTime.ofNaiveDate (date : NaiveDate) : BaiDateTime :=
  BaiDateTime.DateEndOfDay date

/-- `BaiDateTime::date`. -/
def BaiDateTime.date : BaiDateTime → NaiveDate
  | BaiDateTime.DateTime dt => dt.date
  | BaiDateTime.DateEndOfDay d => d

/-- `BaiDateTime::time`. -/
def BaiDateTime.time : BaiDateTime → Option NaiveTime
  | BaiDateTime.DateTime dt => some dt.time
  | BaiDateTime.DateEndOfDay _d => none

/-- `BaiDateOrTime`: a plain date, a timed instant, or an end-of-day
marker. -/
inductive BaiDateOrTime
  | Date (d : NaiveDate)
  | DateTime (dt : NaiveDateTime)
  | DateEndOfDay (d : NaiveDate)
deriving DecidableEq

/-- `impl From<NaiveDate> for BaiDateOrTime`. -/
def BaiDateOrTime.ofNaiveDate (date : NaiveDate) : BaiDateOrTime :=
  BaiDateOrTime.Date date

/-- `impl From<BaiDateTime> for BaiDateOrTime`: the downgrade keeps the
variant (timed instant stays timed, end-of-day stays end-of-day). -/
def BaiDateOrTime.ofBaiDateTime : BaiDateTime → BaiDateOrTime
  | BaiDateTime.DateTime dt => BaiDateOrTime.DateTime dt
  | BaiDateTime.DateEndOfDay d => BaiDateOrTime.DateEndOfDay d

/-- `BaiDateOrTime::date`. -/
def BaiDateOrTime.date : BaiDateOrTime → NaiveDate
  | BaiDateOrTime.Date d => d
  | BaiDateOrTime.DateTime dt => dt.date
  | BaiDateOrTime.DateEndOfDay d => d

/-- `BaiDateOrTime::date_time`. -/
def BaiDateOrTime.date_time : BaiDateOrTime → Option BaiDateTime
  | BaiDateOrTime.Date _ => none
  | BaiDateOrTime.DateTime dt => some (BaiDateTime.ofNaiveDateTime dt)
  | BaiDateOrTime.DateEndOfDay d => some (BaiDateTime.ofNaiveDate d)

/-! ## Small newtypes (src/data/mod.rs) -/

/-- `Party(pub String)`. -/
structure Party where
  val : String
deriving DecidableEq

/-- `FileIdent(pub u32)`. -/
structure FileIdent where
  val : U32
deriving DecidableEq

/-- `AccountNumber(pub String)`. -/
structure AccountNumber where
  val : String
deriving DecidableEq

/-- `ReferenceNum(pub String)`. -/
structure ReferenceNum where
  val : String
deriving DecidableEq

/-! ## Type tables (src/data/type_codes.rs, plus the enum_mapping
tables in src/data/mod.rs) -/

/-- `GroupStatus` (`enum_mapping`, codes 1-4). -/
inductive GroupStatus
  | Update
  | Deletion
  | Correction
  | TestOnly
deriving DecidableEq

/-- The `enum_mapping` code table for `GroupStatus`:
`Update(1), Deletion(2), Correction(3), TestOnly(4)`. -/
def GroupStatus.fromCode : Nat → Option GroupStatus
  | 1 => some GroupStatus.Update
  | 2 => some GroupStatus.Deletion
  | 3 => some GroupStatus.Correction
  | 4 => some GroupStatus.TestOnly
  | _ => none

/-- `AsOfDateModifier` (`enum_mapping`, codes 1-4). -/
inductive AsOfDateModifier
  | InterimPrevious
  | FinalPrevious
  | InterimSame
  | FinalSame
deriving DecidableEq

/-- The `enum_mapping` code table for `AsOfDateModifier`:
`InterimPrevious(1), FinalPrevious(2), InterimSame(3), FinalSame(4)`. -/
def AsOfDateModifier.fromCode : Nat → Option AsOfDateModifier
  | 1 => some AsOfDateModifier.InterimPrevious
  | 2 => some AsOfDateModifier.FinalPrevious
  | 3 => some AsOfDateModifier.InterimSame
  | 4 => some AsOfDateModifier.FinalSame
  | _ => none

/-- Modelled from the spec: the `SummaryCode` enumeration of the type
tables (`src/data/type_codes.rs` is not under `src/`); carried by its
numeric code. -/
structure SummaryCode where
  code : Nat
deriving DecidableEq

/-- Modelled from the spec: the `StatusCode` enumeration of the type
tables (`src/data/type_codes.rs` is not under `src/`); carried by its
numeric code. -/
structure StatusCode where
  code : Nat
deriving DecidableEq

/-- Modelled from the spec: the `DetailCode` enumeration of the type
tables (`src/data/type_codes.rs` is not under `src/`); carried by its
numeric code. -/
structure DetailCode where
  code : Nat
deriving DecidableEq

/-! ## FundsType and the document model (src/data/mod.rs) -/

/-- `DistributedAvailDistribution`: one `{days, amount}` pair of the
table-form distributed availability. -/
structure DistributedAvailDistribution where
  days : U32
  amount : I64
deriving DecidableEq

/-- `DistributedAvailDistribution::amount_money`. -/
def DistributedAvailDistribution.amount_money
    (d : DistributedAvailDistribution) (funds_cur : Currency) : Money :=
  Money.new d.amount.val funds_cur

/-- `FundsType`: when funds become available. The two distributed
variants keep the two wire encodings distinct. -/
inductive FundsType
  | Unknown
  | ImmediateAvail
  | OneDayAvail
  | TwoOrMoreDaysAvail
  | DistributedAvailS (immediate : Option I64) (one_day : Option I64)
      (more_than_one_day : Option I64)
  | ValueDated (avail : BaiDateOrTime)
  | DistributedAvailD (dists : List DistributedAvailDistribution)
deriving DecidableEq

/-- `AccountInfo`: summary (unsigned amount, optional item count) or
status (signed amount) balance reporting. -/
inductive AccountInfo
  | Summary (code : SummaryCode) (amount : Option U64)
      (item_count : Option U32) (funds : Option FundsType)
  | Status (code : StatusCode) (amount : Option I64)
      (funds : Option FundsType)
deriving DecidableEq

/-- `AccountInfo::amount_money`: attaches the amount to the account
currency; the summary branch applies the `amount as i64` cast. -/
def AccountInfo.amount_money : AccountInfo → Currency → Option Money
  | AccountInfo.Summary _ (some amount) _ _, account_cur =>
      some (Money.new (u64AsI64 amount) account_cur)
  | AccountInfo.Status _ (some amount) _, account_cur =>
      some (Money.new amount.val account_cur)
  | _, _ => none

/-- `TransactionDetail`: one transaction line. -/
structure TransactionDetail where
  code : DetailCode
  amount : Option I64
  funds : Option FundsType
  bank_ref_num : Option ReferenceNum
  customer_ref_num : Option ReferenceNum
  text : Option (List String)
deriving DecidableEq

/-- `TransactionDetail::amount_money`. -/
def TransactionDetail.amount_money (t : TransactionDetail)
    (account_cur : Currency) : Option Money :=
  t.amount.map (fun amount => Money.new amount.val account_cur)

/-- `Account`: one customer account within a group. -/
structure Account where
  customer_account : AccountNumber
  currency : Option Currency
  infos : List AccountInfo
  transaction_details : List TransactionDetail
deriving DecidableEq

/-- `Account::currency_def`: the stored currency, defaulting to the
owning group's currency. -/
def Account.currency_def (a : Account) (group_cur : Currency) : Currency :=
  a.currency.getD group_cur

/-- `Group`: one logical batch within a file. -/
structure Group where
  ultimate_receiver : Option Party
  originator : Option Party
  status : GroupStatus
  as_of : BaiDateOrTime
  currency : Option Currency
  as_of_date_mod : Option AsOfDateModifier
  accounts : List Account
deriving DecidableEq

/-- `Group::currency_def`: the stored currency, defaulting to
`Currency::USD`. -/
def Group.currency_def (g : Group) : Currency :=
  g.currency.getD Currency.USD

/-- `File`: the root entity of one transmission. -/
structure File where
  sender : Party
  receiver : Party
  creation : BaiDateTime
  ident : FileIdent
  groups : List Group
deriving DecidableEq

/-! ## Record parser stage

The `parse` and `ast` modules of the repository are not under `src/`
(only their caller `File::process` is); everything in this section is
modelled from the spec (§4.1, §6): lines split on the line terminator,
each record is a two-digit type code, a comma-delimited field list and
a terminating `/`, trailing whitespace ignored, unknown type codes a
lexical error. -/

/-- Modelled from the spec: the lexical error of the missing record
parser (`parse::file`, a nom error in the source): malformed framing or
an unrecognized type code, with the offending line. -/
inductive LexError
  | malformedRecord (line : Nat)
  | unknownTypeCode (line : Nat) (code : Nat)
deriving DecidableEq

/-- Modelled from the spec: one raw record as produced by the missing
lexical stage — a type code plus undecoded comma-delimited fields. -/
structure RawLine where
  code : Nat
  fields : List (List Char)
deriving DecidableEq

/-- Split a character list on a delimiter (keeping empty segments). -/
def splitOnChar (c : Char) : List Char → List (List Char)
  | [] => [[]]
  | x :: xs =>
      let r := splitOnChar c xs
      if x = c then [] :: r
      else
        match r with
        | [] => [[x]]
        | s :: ss => (x :: s) :: ss

/-- Split the byte buffer into physical lines on the line terminator,
dropping a final empty segment after a trailing terminator. -/
def splitLines (input : List Char) : List (List Char) :=
  let segs := splitOnChar (Char.ofNat 10) input
  match segs.reverse with
  | [] :: rest => rest.reverse
  | _ => segs

/-- Drop trailing whitespace/padding from a physical line. -/
def rstrip (line : List Char) : List Char :=
  (line.reverse.dropWhile fun c => c = ' ' || c = Char.ofNat 13).reverse

/-- The record type codes of the transmission format: file header 01,
group header 02, account identifier 03, transaction detail 16, account
trailer 49, continuation 88, group trailer 98, file trailer 99. -/
def knownTypeCodes : List Nat := [1, 2, 3, 16, 49, 88, 98, 99]

/-- Numeric value of an ASCII digit. -/
def digitVal (c : Char) : Nat := c.toNat - 48

/-- Modelled from the spec: lex one physical line into a raw record —
a two-digit type code, then either nothing or a comma and the fields,
terminated by the marker `/`. -/
def lexLine (idx : Nat) (line : List Char) : Except LexError RawLine :=
  match rstrip line with
  | c1 :: c2 :: rest =>
      if c1.isDigit && c2.isDigit then
        let code := digitVal c1 * 10 + digitVal c2
        if knownTypeCodes.contains code then
          match rest.reverse with
          | '/' :: bodyRev =>
              match bodyRev.reverse with
              | [] => Except.ok ⟨code, []⟩
              | ',' :: fs => Except.ok ⟨code, splitOnChar ',' fs⟩
              | _ => Except.error (LexError.malformedRecord idx)
          | _ => Except.error (LexError.malformedRecord idx)
        else Except.error (LexError.unknownTypeCode idx code)
      else Except.error (LexError.malformedRecord idx)
  | _ => Except.error (LexError.malformedRecord idx)

/-- Lex a list of physical lines, numbering them from `idx`. -/
def lexLines : Nat → List (List Char) → Except LexError (List RawLine)
  | _, [] => Except.ok []
  | idx, l :: ls => do
      let r ← lexLine idx l
      let rs ← lexLines (idx + 1) ls
      Except.ok (r :: rs)

/-- Modelled from the spec: the missing lexical stage `parse::file` —
split the buffer into lines and lex each line into a raw record. -/
def lexFile (input : List Char) : Except LexError (List RawLine) :=
  lexLines 0 (splitLines input)

/-! ## Field decoding (modelled from the spec, §4.1) -/

/-- Decode a non-empty all-digit field as an unsigned number. -/
def decodeNat? (f : List Char) : Option Nat :=
  if f.isEmpty then none
  else if f.all Char.isDigit then
    some (f.foldl (fun n c => n * 10 + digitVal c) 0)
  else none

/-- Decode a signed number (optional leading minus sign). -/
def decodeInt? : List Char → Option Int
  | '-' :: rest => (decodeNat? rest).map (fun n => -(n : Int))
  | f => (decodeNat? f).map (fun n => (n : Int))

/-- Decode a `u32` field, rejecting out-of-range values. -/
def decodeU32? (f : List Char) : Option U32 :=
  (decodeNat? f).bind fun n => if h : n < 2 ^ 32 then some ⟨n, h⟩ else none

/-- Decode a `u64` field, rejecting out-of-range values. -/
def decodeU64? (f : List Char) : Option U64 :=
  (decodeNat? f).bind fun n => if h : n < 2 ^ 64 then some ⟨n, h⟩ else none

/-- Decode an `i64` field, rejecting out-of-range values. -/
def decodeI64? (f : List Char) : Option I64 :=
  (decodeInt? f).bind fun i =>
    if h : -(2 ^ 63) ≤ i ∧ i < 2 ^ 63 then some ⟨i, h⟩ else none

/-- Decode an optional `i64` field (empty means absent). -/
def decodeOptI64? (f : List Char) : Option (Option I64) :=
  if f.isEmpty then some none else (decodeI64? f).map some

/-- Decode an optional `u64` field (empty means absent). -/
def decodeOptU64? (f : List Char) : Option (Option U64) :=
  if f.isEmpty then some none else (decodeU64? f).map some

/-- Decode an optional `u32` field (empty means absent). -/
def decodeOptU32? (f : List Char) : Option (Option U32) :=
  if f.isEmpty then some none else (decodeU32? f).map some

/-- Decode a fixed-width six-digit `YYMMDD` date field. -/
def decodeDate? : List Char → Option NaiveDate
  | [y1, y2, m1, m2, d1, d2] =>
      if [y1, y2, m1, m2, d1, d2].all Char.isDigit then
        some ⟨((2000 + digitVal y1 * 10 + digitVal y2 : Nat) : Int),
          digitVal m1 * 10 + digitVal m2, digitVal d1 * 10 + digitVal d2⟩
      else none
  | _ => none

/-- Decode a fixed-width four-digit `HHMM` time field. -/
def decodeTime? : List Char → Option NaiveTime
  | [h1, h2, m1, m2] =>
      if [h1, h2, m1, m2].all Char.isDigit then
        some ⟨digitVal h1 * 10 + digitVal h2, digitVal m1 * 10 + digitVal m2, 0⟩
      else none
  | _ => none

/-- Decode a three-letter currency code field. -/
def decodeCurrency? (f : List Char) : Option Currency :=
  if f.length = 3 && f.all Char.isAlpha then some ⟨String.mk f⟩ else none

/-- Combine a decoded date with an optional time field into a
date-or-time value: no time field gives a plain date, the sentinel
`9999` gives the end-of-day marker, any other time a timed instant. -/
def combineDateOrTime (d : NaiveDate) : Option (List Char) → Option BaiDateOrTime
  | none => some (BaiDateOrTime.Date d)
  | some t =>
      if t = ['9', '9', '9', '9'] then some (BaiDateOrTime.DateEndOfDay d)
      else (decodeTime? t).map fun tm => BaiDateOrTime.DateTime ⟨d, tm⟩

/-- The field at an index, empty when past the end of the line. -/
def fieldAt (fs : List (List Char)) (i : Nat) : List Char :=
  fs.getD i []

/-- The field at an index as an optional field: an empty field or a
premature line end both signal an absent value (spec §4.1). -/
def optFieldAt (fs : List (List Char)) (i : Nat) : Option (List Char) :=
  match fs.get? i with
  | some [] => none
  | some f => some f
  | none => none

/-! ## Typed records (modelled from the spec: the missing `ast::Record`) -/

/-- Modelled from the spec: the field-parse error of the missing
`ast::parse::ParseError` — wrong field count for a record type, or a
field that does not match its grammar, with record type code and field
index. -/
inductive FieldParseError
  | wrongArity (code : Nat) (got : Nat)
  | badField (code : Nat) (idx : Nat)
deriving DecidableEq

/-- Modelled from the spec: the typed records of the missing `ast`
module, one per record type code. -/
inductive Record
  | fileHeader (sender receiver : Party) (creation : BaiDateTime)
      (ident : FileIdent)
  | groupHeader (ultimate_receiver originator : Option Party)
      (status : GroupStatus) (as_of : BaiDateOrTime)
      (currency : Option Currency) (as_of_date_mod : Option AsOfDateModifier)
  | accountIdent (customer_account : AccountNumber)
      (currency : Option Currency) (infos : List AccountInfo)
  | transactionDetail (detail : TransactionDetail)
  | continuation (text : List String)
  | accountTrailer
  | groupTrailer
  | fileTrailer
deriving DecidableEq

/-- Lift an optional decode result into the field-parse monad. -/
def req {α : Type} (e : FieldParseError) : Option α → Except FieldParseError α
  | some a => Except.ok a
  | none => Except.error e

/-- Decode an optional field with a decoder, distinguishing an absent
field (ok, none) from a present but malformed one (error). -/
def optDecode {α : Type} (e : FieldParseError) (dec : List Char → Option α) :
    Option (List Char) → Except FieldParseError (Option α)
  | none => Except.ok none
  | some f =>
      match dec f with
      | some a => Except.ok (some a)
      | none => Except.error e

/-- Parse one `{days, amount}` pair list of the table-form distributed
availability, consuming `2 * n` fields. -/
def parsePairs :
    Nat → List (List Char) →
      Option (List DistributedAvailDistribution × List (List Char))
  | 0, rest => some ([], rest)
  | n + 1, d :: a :: rest => do
      let days ← decodeU32? d
      let amt ← decodeI64? a
      let (ps, r) ← parsePairs n rest
      some (⟨days, amt⟩ :: ps, r)
  | _ + 1, _ => none

/-- Modelled from the spec (§4.2 funds-availability sub-parsing): the
leading qualifier character selects the `FundsType` variant and each
variant consumes a different tail-field arity. Returns the decoded
descriptor (absent for an empty qualifier) and the remaining fields. -/
def parseFunds :
    List (List Char) → Option (Option FundsType × List (List Char))
  | [] => some (none, [])
  | q :: rest =>
      match q with
      | [] => some (none, rest)
      | ['Z'] => some (some FundsType.Unknown, rest)
      | ['0'] => some (some FundsType.ImmediateAvail, rest)
      | ['1'] => some (some FundsType.OneDayAvail, rest)
      | ['2'] => some (some FundsType.TwoOrMoreDaysAvail, rest)
      | ['S'] =>
          match rest with
          | im :: od :: mo :: r => do
              let immediate ← decodeOptI64? im
              let one_day ← decodeOptI64? od
              let more ← decodeOptI64? mo
              some (some (FundsType.DistributedAvailS immediate one_day more), r)
          | _ => none
      | ['V'] =>
          match rest with
          | d :: t :: r => do
              let date ← decodeDate? d
              let avail ← combineDateOrTime date (if t.isEmpty then none else some t)
              some (some (FundsType.ValueDated avail), r)
          | _ => none
      | ['D'] =>
          match rest with
          | n :: r => do
              let count ← decodeNat? n
              let (ps, r2) ← parsePairs count r
              some (some (FundsType.DistributedAvailD ps), r2)
          | _ => none
      | _ => none

/-- Modelled from the spec: decode the inline AccountInfo groups of an
account-identifier record — repeating `(code, amount, item count)`
triples each followed by a funds-availability descriptor. Codes below
100 are status codes (item count must be empty, amount signed), codes
from 100 up are summary codes (amount unsigned). The first argument is
recursion fuel, called with the field-list length. -/
def parseInfos : Nat → List (List Char) → Option (List AccountInfo)
  | _, [] => some []
  | 0, _ :: _ => none
  | fuel + 1, codeF :: amountF :: itemF :: rest => do
      let c ← decodeNat? codeF
      let (funds, r) ← parseFunds rest
      let more ← parseInfos fuel r
      if c < 100 then
        if itemF.isEmpty then do
          let amount ← decodeOptI64? amountF
          some (AccountInfo.Status ⟨c⟩ amount funds :: more)
        else none
      else do
        let amount ← decodeOptU64? amountF
        let item_count ← decodeOptU32? itemF
        some (AccountInfo.Summary ⟨c⟩ amount item_count funds :: more)
  | _ + 1, _ => none

/-- Modelled from the spec: decode a file-header record (01):
sender, receiver, creation date, optional creation time (absent means
end of day), file identifier. -/
def parseFileHeader (fs : List (List Char)) : Except FieldParseError Record :=
  if fs.length = 5 then do
    let d ← req (FieldParseError.badField 1 2) (decodeDate? (fieldAt fs 2))
    let creation ←
      match optFieldAt fs 3 with
      | none => Except.ok (BaiDateTime.ofNaiveDate d)
      | some t =>
          req (FieldParseError.badField 1 3)
            ((decodeTime? t).map fun tm => BaiDateTime.ofNaiveDateTime ⟨d, tm⟩)
    let ident ← req (FieldParseError.badField 1 4) (decodeU32? (fieldAt fs 4))
    Except.ok (Record.fileHeader ⟨String.mk (fieldAt fs 0)⟩
      ⟨String.mk (fieldAt fs 1)⟩ creation ⟨ident⟩)
  else Except.error (FieldParseError.wrongArity 1 fs.length)

/-- Modelled from the spec: decode a group-header record (02):
optional ultimate receiver, optional originator, group status, as-of
date, optional as-of time, optional currency, optional as-of-date
modifier; the trailing optional fields may be empty or missing. -/
def parseGroupHeader (fs : List (List Char)) : Except FieldParseError Record :=
  if 4 ≤ fs.length && fs.length ≤ 7 then do
    let status ← req (FieldParseError.badField 2 2)
      ((decodeNat? (fieldAt fs 2)).bind GroupStatus.fromCode)
    let d ← req (FieldParseError.badField 2 3) (decodeDate? (fieldAt fs 3))
    let as_of ← req (FieldParseError.badField 2 4)
      (combineDateOrTime d (optFieldAt fs 4))
    let currency ← optDecode (FieldParseError.badField 2 5) decodeCurrency?
      (optFieldAt fs 5)
    let as_of_date_mod ← optDecode (FieldParseError.badField 2 6)
      (fun f => (decodeNat? f).bind AsOfDateModifier.fromCode) (optFieldAt fs 6)
    Except.ok (Record.groupHeader
      ((optFieldAt fs 0).map fun f => ⟨String.mk f⟩)
      ((optFieldAt fs 1).map fun f => ⟨String.mk f⟩)
      status as_of currency as_of_date_mod)
  else Except.error (FieldParseError.wrongArity 2 fs.length)

/-- Modelled from the spec: decode an account-identifier record (03):
account number, optional currency, then any inline AccountInfo field
groups present on the header line itself. -/
def parseAccountIdent (fs : List (List Char)) : Except FieldParseError Record :=
  if 1 ≤ fs.length then do
    let currency ← optDecode (FieldParseError.badField 3 1) decodeCurrency?
      (optFieldAt fs 1)
    let infos ← req (FieldParseError.badField 3 2)
      (parseInfos (fs.drop 2).length (fs.drop 2))
    Except.ok (Record.accountIdent ⟨String.mk (fieldAt fs 0)⟩ currency infos)
  else Except.error (FieldParseError.wrongArity 3 fs.length)

/-- Modelled from the spec: decode a transaction-detail record (16):
detail code, optional signed amount, funds-availability descriptor,
optional bank and customer reference numbers, and any remaining fields
as free-text lines. -/
def parseTransactionDetail (fs : List (List Char)) :
    Except FieldParseError Record :=
  match fs with
  | codeF :: amountF :: rest => do
      let c ← req (FieldParseError.badField 16 0) (decodeNat? codeF)
      if 100 ≤ c && c < 1000 then do
        let amount ← req (FieldParseError.badField 16 1) (decodeOptI64? amountF)
        let (funds, r) ← req (FieldParseError.badField 16 2) (parseFunds rest)
        let text := r.drop 2
        Except.ok (Record.transactionDetail
          { code := ⟨c⟩, amount := amount, funds := funds,
            bank_ref_num := (optFieldAt r 0).map fun f => ⟨String.mk f⟩,
            customer_ref_num := (optFieldAt r 1).map fun f => ⟨String.mk f⟩,
            text := if text.isEmpty then none else some (text.map String.mk) })
      else Except.error (FieldParseError.badField 16 0)
  | _ => Except.error (FieldParseError.wrongArity 16 fs.length)

/-- Modelled from the spec: `ast::Record::parse` — decode a raw record
into a typed record according to its type code. Trailer records carry
no modelled payload (control totals are not validated, spec §9). -/
def Record.parse (raw : RawLine) : Except FieldParseError Record :=
  match raw.code with
  | 1 => parseFileHeader raw.fields
  | 2 => parseGroupHeader raw.fields
  | 3 => parseAccountIdent raw.fields
  | 16 => parseTransactionDetail raw.fields
  | 49 => Except.ok Record.accountTrailer
  | 88 => Except.ok (Record.continuation (raw.fields.map String.mk))
  | 98 => Except.ok Record.groupTrailer
  | 99 => Except.ok Record.fileTrailer
  | c => Except.error (FieldParseError.wrongArity c raw.fields.length)

/-! ## Conversion state machine

The `ast::convert` module is not under `src/`; this section is
modelled from the spec (§4.2): a single left-to-right pass over the
typed records, maintaining the nesting context and assembling the
document, with sequences kept in transmission order. -/

/-- The record classification used in conversion error reports. -/
inductive RecordTag
  | fileHeader
  | groupHeader
  | accountIdent
  | transactionDetail
  | continuation
  | accountTrailer
  | groupTrailer
  | fileTrailer
deriving DecidableEq

/-- The classification of a typed record. -/
def Record.tag : Record → RecordTag
  | Record.fileHeader _ _ _ _ => RecordTag.fileHeader
  | Record.groupHeader _ _ _ _ _ _ => RecordTag.groupHeader
  | Record.accountIdent _ _ _ => RecordTag.accountIdent
  | Record.transactionDetail _ => RecordTag.transactionDetail
  | Record.continuation _ => RecordTag.continuation
  | Record.accountTrailer => RecordTag.accountTrailer
  | Record.groupTrailer => RecordTag.groupTrailer
  | Record.fileTrailer => RecordTag.fileTrailer

/-- The nesting-state classification used in conversion error reports. -/
inductive StateTag
  | start
  | inFile
  | inGroup
  | inAccount
  | done
deriving DecidableEq

/-- Modelled from the spec: the structural/semantic error of the
missing `ast::convert::ConvertError` — a well-formed record appeared
in a state that does not accept it (what was seen vs. the nesting
state), or a continuation record had nothing to merge into. -/
inductive ConvertError
  | unexpectedRecord (seen : RecordTag) (state : StateTag)
  | continuationWithoutTarget
deriving DecidableEq

/-- The open file being assembled (captured file-header fields plus
the closed groups so far, in transmission order). -/
structure FileBuilder where
  sender : Party
  receiver : Party
  creation : BaiDateTime
  ident : FileIdent
  groups : List Group
deriving DecidableEq

/-- The open group being assembled. -/
structure GroupBuilder where
  ultimate_receiver : Option Party
  originator : Option Party
  status : GroupStatus
  as_of : BaiDateOrTime
  currency : Option Currency
  as_of_date_mod : Option AsOfDateModifier
  accounts : List Account
deriving DecidableEq

/-- The open account being assembled; `mergeable` is the pending
continuation-merge target flag (set after a transaction detail,
cleared when the account opens). -/
structure AccountBuilder where
  customer_account : AccountNumber
  currency : Option Currency
  infos : List AccountInfo
  transaction_details : List TransactionDetail
  mergeable : Bool
deriving DecidableEq

/-- Seal an open account into the document model; an absent currency
is left absent (the cascade is a query, not baked into storage). -/
def AccountBuilder.close (a : AccountBuilder) : Account :=
  ⟨a.customer_account, a.currency, a.infos, a.transaction_details⟩

/-- Seal an open group into the document model. -/
def GroupBuilder.close (g : GroupBuilder) : Group :=
  ⟨g.ultimate_receiver, g.originator, g.status, g.as_of, g.currency,
    g.as_of_date_mod, g.accounts⟩

/-- Modelled from the spec: the nesting states of the missing
conversion state machine — Start, InFile, InGroup, InAccount, Done,
each carrying its open context. -/
inductive ConvState
  | start
  | inFile (f : FileBuilder)
  | inGroup (f : FileBuilder) (g : GroupBuilder)
  | inAccount (f : FileBuilder) (g : GroupBuilder) (a : AccountBuilder)
  | done (f : File)
deriving DecidableEq

/-- Whether the state machine is in the terminal Done state. -/
def ConvState.isDone : ConvState → Bool
  | ConvState.done _ => true
  | _ => false

/-- Append continuation text lines to the most recently appended
transaction detail. -/
def mergeText (lines : List String) :
    List TransactionDetail → Option (List TransactionDetail)
  | [] => none
  | [d] => some [{ d with text := some (d.text.getD [] ++ lines) }]
  | d :: ds => (mergeText lines ds).map (fun r => d :: r)

/-- Modelled from the spec: one transition of the conversion state
machine (§4.2) — open/close file, group and account on their header
and trailer records, append transaction details, merge continuations
into the pending target, and reject records in invalid states
(including any record after the file trailer). -/
def stepRecord : ConvState → Record → Except ConvertError ConvState
  | ConvState.start, Record.fileHeader s r c i =>
      Except.ok (ConvState.inFile ⟨s, r, c, i, []⟩)
  | ConvState.start, other =>
      Except.error (ConvertError.unexpectedRecord other.tag StateTag.start)
  | ConvState.inFile f, Record.groupHeader ur o st ao cur m =>
      Except.ok (ConvState.inGroup f ⟨ur, o, st, ao, cur, m, []⟩)
  | ConvState.inFile f, Record.fileTrailer =>
      Except.ok (ConvState.done ⟨f.sender, f.receiver, f.creation, f.ident, f.groups⟩)
  | ConvState.inFile _, other =>
      Except.error (ConvertError.unexpectedRecord other.tag StateTag.inFile)
  | ConvState.inGroup f g, Record.accountIdent n cur infos =>
      Except.ok (ConvState.inAccount f g ⟨n, cur, infos, [], false⟩)
  | ConvState.inGroup f g, Record.groupTrailer =>
      Except.ok (ConvState.inFile { f with groups := f.groups ++ [g.close] })
  | ConvState.inGroup _ _, other =>
      Except.error (ConvertError.unexpectedRecord other.tag StateTag.inGroup)
  | ConvState.inAccount f g a, Record.transactionDetail td =>
      Except.ok (ConvState.inAccount f g
        { a with transaction_details := a.transaction_details ++ [td],
                 mergeable := true })
  | ConvState.inAccount f g a, Record.continuation lines =>
      if a.mergeable then
        match mergeText lines a.transaction_details with
        | some ds =>
            Except.ok (ConvState.inAccount f g { a with transaction_details := ds })
        | none => Except.error ConvertError.continuationWithoutTarget
      else Except.error ConvertError.continuationWithoutTarget
  | ConvState.inAccount f g a, Record.accountTrailer =>
      Except.ok (ConvState.inGroup f { g with accounts := g.accounts ++ [a.close] })
  | ConvState.inAccount _ _ _, other =>
      Except.error (ConvertError.unexpectedRecord other.tag StateTag.inAccount)
  | ConvState.done _, other =>
      Except.error (ConvertError.unexpectedRecord other.tag StateTag.done)

/-- `FileProcessError` (src/data/mod.rs lines 536-542): the four
non-overlapping error kinds of `File::process`. -/
inductive FileProcessError
  | Parse (e : LexError)
  | FieldParse (e : FieldParseError)
  | UnfinishedConversion
  | Conversion (e : ConvertError)
deriving DecidableEq

/-- Modelled from the spec: the interleaved parse-and-convert pass of
`File::process` — lazily field-parse each raw record and feed it to
the state machine, short-circuiting on the first error in stream
order. Returns the final nesting state. -/
def runPipeline : ConvState → List RawLine → Except FileProcessError ConvState
  | s, [] => Except.ok s
  | s, raw :: raws =>
      match Record.parse raw with
      | Except.error e => Except.error (FileProcessError.FieldParse e)
      | Except.ok rec =>
          match stepRecord s rec with
          | Except.error e => Except.error (FileProcessError.Conversion e)
          | Except.ok s2 => runPipeline s2 raws

/-- `File::process`: the whole pipeline over one byte buffer — lex
into raw records, field-parse and convert record by record, and demand
the Done state at end of input (`Converter::fold_results` maps a
mid-stream conversion error to `Conversion` and an unfinished end
state to `UnfinishedConversion`). -/
def File.process (input : List Char) : Except FileProcessError File :=
  match lexFile input with
  | Except.error k => Except.error (FileProcessError.Parse k)
  | Except.ok raws =>
      match runPipeline ConvState.start raws with
      | Except.error e => Except.error e
      | Except.ok (ConvState.done f) => Except.ok f
      | Except.ok _ => Except.error FileProcessError.UnfinishedConversion

/-! ## Concrete example inputs and documents -/

/-- A complete well-formed transmission: one group, one account with a
status info and one transaction detail extended by a continuation. -/
def exGoodInput : List Char :=
  ("01,SEND,RECV,251001,0930,1/\n" ++
   "02,,ORIG,1,251001,,,/\n" ++
   "03,123,USD,10,500,,Z/\n" ++
   "16,165,1000,Z,BREF,CREF,PAYMENT/\n" ++
   "88,MORE TEXT/\n" ++
   "49/\n98/\n99/").data

/-- A truncated transmission: it ends immediately after the group
header, with the group, and the file, still open. -/
def exTruncInput : List Char :=
  ("01,SEND,RECV,251001,0930,1/\n" ++
   "02,,ORIG,1,251001,,,/").data

/-- The raw records of the truncated transmission. -/
def exTruncRaws : List RawLine :=
  match lexFile exTruncInput with
  | Except.ok r => r
  | Except.error _ => []

/-- The nesting state the converter reaches on the truncated
transmission (an open group inside an open file). -/
def exTruncState : ConvState :=
  match runPipeline ConvState.start exTruncRaws with
  | Except.ok s => s
  | Except.error _ => ConvState.start

/-- A placeholder document used only as the dead-branch value of the
extractions below. -/
def fallbackFile : File :=
  ⟨⟨""⟩, ⟨""⟩, BaiDateTime.DateEndOfDay ⟨0, 1, 1⟩, ⟨⟨0, by decide⟩⟩, []⟩

/-- The document assembled from the well-formed transmission. -/
def exGoodFile : File :=
  match File.process exGoodInput with
  | Except.ok f => f
  | Except.error _ => fallbackFile

/-- An example group with no stored currency. -/
def exGroupNoCur : Group :=
  ⟨none, none, GroupStatus.Update, BaiDateOrTime.Date ⟨2025, 10, 1⟩, none, none, []⟩

/-- An example group storing the currency EUR. -/
def exGroupEur : Group := { exGroupNoCur with currency := some ⟨"EUR"⟩ }

/-- An example account with no stored currency. -/
def exAccountNoCur : Account := ⟨⟨"123"⟩, none, [], []⟩

/-- An example account storing the currency JPY. -/
def exAccountJpy : Account := { exAccountNoCur with currency := some ⟨"JPY"⟩ }

/-- An example transaction detail with amount 7. -/
def exDetail : TransactionDetail :=
  ⟨⟨165⟩, some ⟨7, by decide⟩, none, none, none, none⟩

/-! ## Theorems for the claims -/

/-- C1: the currency cascade is two-level — a Group's effective
currency (`Group::currency_def`) is its stored currency when present
and the system default USD when absent, and an Account's effective
currency (`Account::currency_def`) under group currency `gc` is its
stored currency when present and `gc` when absent. -/
theorem currency_cascade_two_level :
    (∀ g : Group, g.currency = none → g.currency_def = Currency.USD) ∧
    (∀ (g : Group) (c : Currency), g.currency = some c → g.currency_def = c) ∧
    (∀ (a : Account) (gc : Currency), a.currency = none → a.currency_def gc = gc) ∧
    (∀ (a : Account) (gc c : Currency), a.currency = some c → a.currency_def gc = c) := by
  refine ⟨?_, ?_, ?_, ?_⟩ <;> intros <;>
    simp_all [Group.currency_def, Account.currency_def]

/-- C1 witness: the cascade evaluated on concrete groups and accounts
with and without stored currencies. -/
theorem currency_cascade_two_level_witness :
    exGroupNoCur.currency_def = Currency.USD ∧
    exGroupEur.currency_def = ⟨"EUR"⟩ ∧
    exAccountNoCur.currency_def ⟨"EUR"⟩ = ⟨"EUR"⟩ ∧
    exAccountJpy.currency_def ⟨"EUR"⟩ = ⟨"JPY"⟩ :=
  ⟨currency_cascade_two_level.1 exGroupNoCur rfl,
   currency_cascade_two_level.2.1 exGroupEur ⟨"EUR"⟩ rfl,
   currency_cascade_two_level.2.2.1 exAccountNoCur ⟨"EUR"⟩ rfl,
   currency_cascade_two_level.2.2.2 exAccountJpy ⟨"EUR"⟩ ⟨"JPY"⟩ rfl⟩

/-- C2: on every input byte buffer, `File::process` returns either an
assembled document or exactly one of the four error kinds (a lexical
parse error, a field-parse error, the unfinished-conversion error, or
a conversion/semantic error); the result carries no document in the
error cases. -/
theorem process_result_exhaustive (input : List Char) :
    (∃ f, File.process input = Except.ok f) ∨
      (∃ k, File.process input = Except.error (FileProcessError.Parse k)) ∨
      (∃ e, File.process input = Except.error (FileProcessError.FieldParse e)) ∨
      File.process input = Except.error FileProcessError.UnfinishedConversion ∨
      (∃ e, File.process input = Except.error (FileProcessError.Conversion e)) := by
  match h : File.process input with
  | Except.ok f => exact Or.inl ⟨f, rfl⟩
  | Except.error (FileProcessError.Parse k) => exact Or.inr (Or.inl ⟨k, rfl⟩)
  | Except.error (FileProcessError.FieldParse e) =>
      exact Or.inr (Or.inr (Or.inl ⟨e, rfl⟩))
  | Except.error FileProcessError.UnfinishedConversion =>
      exact Or.inr (Or.inr (Or.inr (Or.inl rfl)))
  | Except.error (FileProcessError.Conversion e) =>
      exact Or.inr (Or.inr (Or.inr (Or.inr ⟨e, rfl⟩)))

/-- C3: whenever the lexed record sequence of an input runs through
the conversion state machine without a mid-stream error but ends in a
state other than Done (an open file, group or account was never
closed), `File::process` returns the UnfinishedConversion error. -/
theorem process_unfinished_on_open_state (input : List Char)
    (raws : List RawLine) (s : ConvState)
    (hlex : lexFile input = Except.ok raws)
    (hrun : runPipeline ConvState.start raws = Except.ok s)
    (hopen : s.isDone = false) :
    File.process input = Except.error FileProcessError.UnfinishedConversion := by
  simp only [File.process, hlex, hrun]
  cases s <;> simp_all [ConvState.isDone]

/-- C3 witness: an input ending immediately after a group-header
record yields the unfinished-conversion error. -/
theorem process_unfinished_on_open_state_witness :
    File.process exTruncInput = Except.error FileProcessError.UnfinishedConversion :=
  process_unfinished_on_open_state exTruncInput exTruncRaws exTruncState rfl rfl rfl

/-- C4 counterexample: at the concrete summary amount `2 ^ 63` the
`amount as i64` cast inside `AccountInfo::amount_money` wraps: the
returned money carries the negative value `-(2 ^ 63)`, which is not
the stored amount — refuting the claim that every present summary
amount is returned unchanged and non-negative. -/
theorem summary_amount_money_wrap_cex :
    (AccountInfo.Summary ⟨100⟩ (some ⟨2 ^ 63, by decide⟩) none none).amount_money
        Currency.USD = some (Money.new (-(2 ^ 63) : Int) Currency.USD) ∧
    (-(2 ^ 63) : Int) < 0 ∧ (-(2 ^ 63) : Int) ≠ ((2 ^ 63 : Nat) : Int) := by
  refine ⟨?_, by decide, by decide⟩
  simp [AccountInfo.amount_money, u64AsI64]

/-- C4 (amended): for a Summary whose present amount `a` is below
`2 ^ 63`, `amount_money` returns Some money whose value is exactly `a`
and is non-negative (for `a ≥ 2 ^ 63` the u64-to-i64 cast wraps to the
negative `a - 2 ^ 64`); Status amounts are passed through signed. -/
theorem summary_amount_money_in_range
    (code : SummaryCode) (a : U64) (ic : Option U32) (fd : Option FundsType)
    (sc : StatusCode) (sa : I64) (sfd : Option FundsType)
    (c : Currency) (h : a.val < 2 ^ 63) :
    (AccountInfo.Summary code (some a) ic fd).amount_money c
        = some (Money.new (a.val : Int) c) ∧
    (0 : Int) ≤ (a.val : Int) ∧
    (AccountInfo.Status sc (some sa) sfd).amount_money c
        = some (Money.new sa.val c) := by
  refine ⟨?_, Int.natCast_nonneg _, rfl⟩
  have h2 : a.val < 9223372036854775808 := by simpa using h
  simp [AccountInfo.amount_money, u64AsI64, h2]

/-- C4 witness: the amended statement evaluated at summary amount 5
and status amount -500. -/
theorem summary_amount_money_in_range_witness :
    (AccountInfo.Summary ⟨100⟩ (some ⟨5, by decide⟩) none none).amount_money
        Currency.USD = some (Money.new ((5 : Nat) : Int) Currency.USD) ∧
    (0 : Int) ≤ ((5 : Nat) : Int) ∧
    (AccountInfo.Status ⟨10⟩ (some ⟨-500, by decide⟩) none).amount_money
        Currency.USD = some (Money.new (-500 : Int) Currency.USD) :=
  summary_amount_money_in_range ⟨100⟩ ⟨5, by decide⟩ none none ⟨10⟩
    ⟨-500, by decide⟩ none Currency.USD (by decide)

/-- C5: the date component of a `BaiDateTime` is total; the time
component is Some exactly on the date+time variant (and is None on the
end-of-day variant); and every `BaiDateTime` converts to a
`BaiDateOrTime`. -/
theorem bai_datetime_component_queries :
    (∀ v : BaiDateTime, ∃ d : NaiveDate, v.date = d) ∧
    (∀ dt : NaiveDateTime, (BaiDateTime.DateTime dt).time = some dt.time) ∧
    (∀ d : NaiveDate, (BaiDateTime.DateEndOfDay d).time = none) ∧
    (∀ v : BaiDateTime, (∃ t, v.time = some t) ↔ ∃ dt, v = BaiDateTime.DateTime dt) ∧
    (∀ v : BaiDateTime, ∃ w : BaiDateOrTime, BaiDateOrTime.ofBaiDateTime v = w) := by
  refine ⟨fun v => ⟨v.date, rfl⟩, fun dt => rfl, fun d => rfl, fun v => ?_,
    fun v => ⟨_, rfl⟩⟩
  cases v <;> simp [BaiDateTime.time]

/-- C6: every amount field of the document model is an integer in
minor units with the machine-integer bounds — Summary amounts are
unsigned (in `[0, 2 ^ 64)`), Status and TransactionDetail amounts are
signed (in `[-2 ^ 63, 2 ^ 63)`). -/
theorem amount_fields_integer_bounds :
    (∀ (i : AccountInfo) (code : SummaryCode) (a : U64) (ic : Option U32)
        (fd : Option FundsType), i = AccountInfo.Summary code (some a) ic fd →
        (0 : Int) ≤ (a.val : Int) ∧ (a.val : Int) < 2 ^ 64) ∧
    (∀ (i : AccountInfo) (code : StatusCode) (a : I64) (fd : Option FundsType),
        i = AccountInfo.Status code (some a) fd →
        -(2 ^ 63) ≤ a.val ∧ a.val < 2 ^ 63) ∧
    (∀ (t : TransactionDetail) (a : I64), t.amount = some a →
        -(2 ^ 63) ≤ a.val ∧ a.val < 2 ^ 63) := by
  refine ⟨fun i code a ic fd _ => ⟨Int.natCast_nonneg _, ?_⟩,
    fun i code a fd _ => a.property, fun t a _ => a.property⟩
  exact_mod_cast a.property

/-- C6 witness: the bounds evaluated on a concrete summary info,
status info and transaction detail. -/
theorem amount_fields_integer_bounds_witness :
    ((0 : Int) ≤ ((5 : Nat) : Int) ∧ ((5 : Nat) : Int) < 2 ^ 64) ∧
    (-(2 ^ 63) ≤ (-500 : Int) ∧ (-500 : Int) < 2 ^ 63) ∧
    (-(2 ^ 63) ≤ (7 : Int) ∧ (7 : Int) < 2 ^ 63) :=
  ⟨amount_fields_integer_bounds.1
      (AccountInfo.Summary ⟨100⟩ (some ⟨5, by decide⟩) none none)
      ⟨100⟩ ⟨5, by decide⟩ none none rfl,
   amount_fields_integer_bounds.2.1
      (AccountInfo.Status ⟨10⟩ (some ⟨-500, by decide⟩) none)
      ⟨10⟩ ⟨-500, by decide⟩ none rfl,
   amount_fields_integer_bounds.2.2 exDetail ⟨7, by decide⟩ rfl⟩

/-- C7: `File::process` is deterministic — two applications to
identical byte buffers yield structurally equal results; in
particular, re-parsing a well-formed input yields a structurally equal
document. -/
theorem process_deterministic (b b2 : List Char) (f f2 : File)
    (hb : b = b2) (h : File.process b = Except.ok f)
    (h2 : File.process b2 = Except.ok f2) : f = f2 := by
  subst hb; rw [h] at h2; exact Except.ok.inj h2

/-- C7 witness: the well-formed example input re-parses to the same
document. -/
theorem process_deterministic_witness : exGoodFile = exGoodFile :=
  process_deterministic exGoodInput exGoodInput exGoodFile exGoodFile rfl rfl rfl

/-- C8: the two distributed-availability encodings stay distinct in
the model — no category-form value (`DistributedAvailS`) equals any
table-form value (`DistributedAvailD`). -/
theorem distributed_avail_variants_distinct
    (immediate one_day more_than_one_day : Option I64)
    (dists : List DistributedAvailDistribution) :
    FundsType.DistributedAvailS immediate one_day more_than_one_day ≠
      FundsType.DistributedAvailD dists := by
  intro h
  exact FundsType.noConfusion h

/-- C8 witness: the distinctness at concrete values of both variants. -/
theorem distributed_avail_variants_distinct_witness :
    FundsType.DistributedAvailS none none none ≠ FundsType.DistributedAvailD [] :=
  distributed_avail_variants_distinct none none none []

/-- C9: downgrading a `BaiDateTime` to a `BaiDateOrTime` and asking
for its date-time component returns Some of the original value, and
preserves the date; the date-time component is None exactly on the
plain Date variant. -/
theorem date_downgrade_roundtrip :
    (∀ v : BaiDateTime,
        (BaiDateOrTime.ofBaiDateTime v).date_time = some v ∧
        (BaiDateOrTime.ofBaiDateTime v).date = v.date) ∧
    (∀ w : BaiDateOrTime, w.date_time = none ↔ ∃ d, w = BaiDateOrTime.Date d) := by
  constructor
  · intro v
    cases v <;>
      simp [BaiDateOrTime.ofBaiDateTime, BaiDateOrTime.date_time,
        BaiDateOrTime.date, BaiDateTime.date, BaiDateTime.ofNaiveDateTime,
        BaiDateTime.ofNaiveDate]
  · intro w
    cases w <;> simp [BaiDateOrTime.date_time]

/-- C10: converting a bare calendar date into a `BaiDateTime` produces
the end-of-day variant, whose time component is None and whose date
component is the original date. -/
theorem naive_date_upgrade_end_of_day (d : NaiveDate) :
    BaiDateTime.ofNaiveDate d = BaiDateTime.DateEndOfDay d ∧
    (BaiDateTime.ofNaiveDate d).time = none ∧
    (BaiDateTime.ofNaiveDate d).date = d :=
  ⟨rfl, rfl, rfl⟩

end Baimax
